import Mathlib

/-!
Verification of the epidemiological surveillance transformation engine
(covid-viz-stack: transformation_script.py and etl_postgres.py).

Shallow embedding conventions:
- a dataframe is a `List Row` (one row per entity/date observation),
  assumed sorted by (iso_code, date) as established by filter_and_clean;
- a missing cell (pandas NaN) is `none : Option ℚ`; numeric cell values
  are rationals (the programs only add, divide and compare);
- dates are naturals (day numbers);
- where IEEE float division semantics matter (division by zero), results
  are modelled with the `FloatVal` type distinguishing finite values,
  infinities and NaN.
-/

namespace Covid

/-- One observation row of the dataframe, with the raw columns kept by
filter_and_clean (CORE_COLUMNS) and the derived columns added by
calculate_derived_metrics. -/
structure Row where
  iso_code : String
  location : String
  date : ℕ
  population : Option ℚ
  total_cases : Option ℚ
  new_cases : Option ℚ
  total_deaths : Option ℚ
  new_deaths : Option ℚ
  total_vaccinations : Option ℚ
  people_vaccinated : Option ℚ
  people_fully_vaccinated : Option ℚ
  new_vaccinations : Option ℚ
  stringency_index : Option ℚ
  incidence_rate_100k : Option ℚ
  death_rate_100k : Option ℚ
  case_fatality_rate : Option ℚ
  vaccination_rate : Option ℚ
deriving Repr, DecidableEq

/-- A row with the given entity code and date and every numeric cell
missing; concrete test rows are built from it by structure update. -/
def blankRow (c : String) (d : ℕ) : Row :=
  ⟨c, c, d, none, none, none, none, none, none, none, none, none, none, none, none, none, none⟩

/-!
## Quality scoring (etl_postgres.py, calculate_data_quality_score, lines 159-176)
-/

/-- Embeds CovidETL.calculate_data_quality_score: start at 100, subtract 15
for each missing value among new_cases, total_cases, population, subtract 10
when new_cases is present and negative, subtract 5 when case_fatality_rate is
present and exceeds 20, return max(0, score). `pd.isna` on a cell is `= none`
here. -/
def calculate_data_quality_score (nc tc pop cfr : Option ℚ) : ℚ :=
  let s0 : ℚ := 100
  let s1 := s0 - (if nc = none then 15 else 0)
  let s2 := s1 - (if tc = none then 15 else 0)
  let s3 := s2 - (if pop = none then 15 else 0)
  let s4 := s3 - (match nc with
    | some v => if v < 0 then 10 else 0
    | none => 0)
  let s5 := s4 - (match cfr with
    | some v => if 20 < v then 5 else 0
    | none => 0)
  max 0 s5

/-- The quality-score formula as the specification words it: 100 minus 15 per
missing key field, minus 10 for a present negative new_cases, minus 5 for a
present case_fatality_rate above 20, floored at 0. Written independently of
the source to compare against `calculate_data_quality_score`. -/
def qualityScoreSpec (nc tc pop cfr : Option ℚ) : ℚ :=
  max 0 (100
    - 15 * (((if nc = none then 1 else 0) : ℚ)
            + (if tc = none then 1 else 0)
            + (if pop = none then 1 else 0))
    - (match nc with
       | some v => if v < 0 then (10 : ℚ) else 0
       | none => 0)
    - (match cfr with
       | some v => if 20 < v then (5 : ℚ) else 0
       | none => 0))

/-!
## Rate metrics under float semantics (transformation_script.py, lines 151-157)
-/

/-- Result of a floating-point computation: a finite value, an infinity, or
NaN. pandas treats NaN as missing, so `nan` is what an "absent" derived cell
looks like, while infinities are genuine (non-missing) values. -/
inductive FloatVal where
  | fin : ℚ → FloatVal
  | posInf : FloatVal
  | negInf : FloatVal
  | nan : FloatVal
deriving Repr, DecidableEq

/-- Embeds the unguarded elementwise computation
(numerator / population) * 100000 from calculate_derived_metrics (used for
both incidence_rate_100k with new_cases and death_rate_100k with new_deaths),
under IEEE-754 division: NaN operands propagate NaN, x/0 is +inf for x > 0,
-inf for x < 0, and NaN for x = 0; multiplying by 100000 preserves the
special values. -/
def rate_per_100k (numer denom : Option ℚ) : FloatVal :=
  match numer, denom with
  | none, _ => FloatVal.nan
  | _, none => FloatVal.nan
  | some n, some d =>
    if d = 0 then
      if n = 0 then FloatVal.nan
      else if 0 < n then FloatVal.posInf
      else FloatVal.negInf
    else FloatVal.fin (n / d * 100000)

/-!
## Defined-zero metrics (transformation_script.py, lines 159-165 and 177-183)
-/

/-- Embeds np.where(total_cases > 0, total_deaths / total_cases * 100, 0):
a NaN total_cases fails the > 0 comparison and selects the 0 branch; when the
comparison holds, a NaN total_deaths propagates through the division, making
the result NaN (`none`). -/
def case_fatality_rate (td tc : Option ℚ) : Option ℚ :=
  match tc with
  | some c =>
    if 0 < c then
      match td with
      | some d => some (d / c * 100)
      | none => none
    else some 0
  | none => some 0

/-- Embeds np.where(population > 0, people_fully_vaccinated / population * 100, 0)
with the same NaN semantics as `case_fatality_rate`. -/
def vaccination_rate (pfv pop : Option ℚ) : Option ℚ :=
  match pop with
  | some p =>
    if 0 < p then
      match pfv with
      | some v => some (v / p * 100)
      | none => none
    else some 0
  | none => some 0

/-!
## Claim theorems: C6, C2, C10
-/

/-- C6: for every row, the quality score equals 100 minus 15 per missing key
field, minus 10 for a present negative new_cases, minus 5 for a present
case_fatality_rate above 20, floored at 0; hence 0 ≤ score ≤ 100 always, and
a row missing new_cases, total_cases and population together (with no other
penalty, case_fatality_rate missing) scores exactly 55. -/
theorem quality_score_spec_correct :
    (∀ nc tc pop cfr : Option ℚ,
      calculate_data_quality_score nc tc pop cfr = qualityScoreSpec nc tc pop cfr)
    ∧ (∀ nc tc pop cfr : Option ℚ,
      0 ≤ calculate_data_quality_score nc tc pop cfr
        ∧ calculate_data_quality_score nc tc pop cfr ≤ 100)
    ∧ calculate_data_quality_score none none none none = 55 := by
  refine ⟨?_, ?_, by norm_num [calculate_data_quality_score]⟩
  · intro nc tc pop cfr
    cases nc <;> cases tc <;> cases pop <;> cases cfr <;>
      simp only [calculate_data_quality_score, qualityScoreSpec] <;>
      split_ifs <;> norm_num
  · intro nc tc pop cfr
    cases nc <;> cases tc <;> cases pop <;> cases cfr <;>
      simp only [calculate_data_quality_score] <;>
      constructor <;> split_ifs <;> norm_num

/-- C2 counterexample: population 0 is non-positive, yet with new_cases 5 the
rate computation performs the division and yields +infinity — the output is
not absent and is an inf value, contradicting the claim that a non-positive
population leaves the rate absent and never infinite. -/
theorem rate_per_100k_zero_population_inf :
    rate_per_100k (some 5) (some 0) = FloatVal.posInf := by
  norm_num [rate_per_100k]

/-- C2 amended: if population (or the numerator) is missing, the rate is NaN,
hence absent, and no division by a missing denominator occurs; but when
population is exactly 0 the division is performed: the result is +infinity
for a positive numerator, -infinity for a negative one, and NaN only when the
numerator is 0; for a nonzero population the finite value
numerator / population * 100000 is produced (including for negative
population). -/
theorem rate_per_100k_missing_guard :
    (∀ n : Option ℚ, rate_per_100k n none = FloatVal.nan)
    ∧ (∀ d : Option ℚ, rate_per_100k none d = FloatVal.nan)
    ∧ (∀ q : ℚ, 0 < q → rate_per_100k (some q) (some 0) = FloatVal.posInf)
    ∧ (∀ q : ℚ, q < 0 → rate_per_100k (some q) (some 0) = FloatVal.negInf)
    ∧ rate_per_100k (some 0) (some 0) = FloatVal.nan
    ∧ (∀ n d : ℚ, d ≠ 0 → rate_per_100k (some n) (some d) = FloatVal.fin (n / d * 100000)) := by
  refine ⟨?_, ?_, ?_, ?_, by norm_num [rate_per_100k], ?_⟩
  · intro n; cases n <;> rfl
  · intro d; cases d <;> rfl
  · intro q hq
    simp [rate_per_100k, ne_of_gt hq, hq]
  · intro q hq
    simp [rate_per_100k, ne_of_lt hq, not_lt.mpr (le_of_lt hq)]
  · intro n d hd
    simp only [rate_per_100k, if_neg hd]

/-- C2 witness: the amended theorem applied at numerator -5, population 0
(yielding -infinity) and at numerator 7, population 2 (finite value). -/
theorem rate_per_100k_missing_guard_witness :
    rate_per_100k (some (-5)) (some 0) = FloatVal.negInf
    ∧ rate_per_100k (some 7) (some 2) = FloatVal.fin (7 / 2 * 100000) :=
  ⟨rate_per_100k_missing_guard.2.2.2.1 (-5) (by norm_num),
   rate_per_100k_missing_guard.2.2.2.2.2 7 2 (by norm_num)⟩

/-- C10 counterexample: with total_cases present and positive (10) but
total_deaths missing, case_fatality_rate is missing (NaN), so the derived
field is absent from a row where both operand columns exist — contradicting
the claim that these fields are never absent. -/
theorem cfr_missing_numerator_absent :
    case_fatality_rate none (some 10) = none := by
  norm_num [case_fatality_rate]

/-- C10 amended: when total_cases is missing or non-positive the
case_fatality_rate is the defined zero (never missing), and when population
is missing or non-positive the vaccination_rate is the defined zero; but
when the tested denominator is positive and the numerator column is missing,
the result is missing (NaN), so the derived field can still be absent. -/
theorem defined_zero_guards :
    (∀ td : Option ℚ, case_fatality_rate td none = some 0)
    ∧ (∀ td : Option ℚ, ∀ c : ℚ, c ≤ 0 → case_fatality_rate td (some c) = some 0)
    ∧ (∀ d c : ℚ, 0 < c → case_fatality_rate (some d) (some c) = some (d / c * 100))
    ∧ (∀ c : ℚ, 0 < c → case_fatality_rate none (some c) = none)
    ∧ (∀ pfv : Option ℚ, vaccination_rate pfv none = some 0)
    ∧ (∀ pfv : Option ℚ, ∀ p : ℚ, p ≤ 0 → vaccination_rate pfv (some p) = some 0)
    ∧ (∀ v p : ℚ, 0 < p → vaccination_rate (some v) (some p) = some (v / p * 100))
    ∧ (∀ p : ℚ, 0 < p → vaccination_rate none (some p) = none) := by
  refine ⟨fun td => rfl, ?_, ?_, ?_, fun pfv => rfl, ?_, ?_, ?_⟩
  · intro td c hc
    simp only [case_fatality_rate, if_neg (not_lt.mpr hc)]
  · intro d c hc
    simp only [case_fatality_rate, if_pos hc]
  · intro c hc
    simp only [case_fatality_rate, if_pos hc]
  · intro pfv p hp
    simp only [vaccination_rate, if_neg (not_lt.mpr hp)]
  · intro v p hp
    simp only [vaccination_rate, if_pos hp]
  · intro p hp
    simp only [vaccination_rate, if_pos hp]

/-- C10 witness: the amended theorem applied at concrete inputs — missing
total_cases gives CFR 0, total_cases 4 with total_deaths 1 gives 25, and a
positive population 100 with missing people_fully_vaccinated gives a missing
vaccination_rate. -/
theorem defined_zero_guards_witness :
    case_fatality_rate (some 3) none = some 0
    ∧ case_fatality_rate (some 1) (some 4) = some (1 / 4 * 100)
    ∧ vaccination_rate none (some 100) = none :=
  ⟨defined_zero_guards.1 (some 3),
   defined_zero_guards.2.2.1 1 4 (by norm_num),
   defined_zero_guards.2.2.2.2.2.2.2 100 (by norm_num)⟩

/-!
## Alert detection (etl_postgres.py, detect_alerts, lines 178-230)
-/

/-- An alert record as appended by detect_alerts. -/
structure Alert where
  country_code : String
  alert_type : String
  alert_date : ℕ
  metric_value : ℚ
  threshold_value : ℚ
  severity : String
deriving Repr, DecidableEq

/-- The incidence block of detect_alerts for one metric value: skip when the
metric is NaN; above 300 emit very_high_incidence (severity high), else above
150 emit high_incidence (severity medium), else nothing. -/
def incidenceAlertsVal (latest : ℕ) (iso : String) : Option ℚ → List Alert
  | none => []
  | some inc =>
    if 300 < inc then
      [⟨iso, "very_high_incidence", latest, inc, 300, "high"⟩]
    else if 150 < inc then
      [⟨iso, "high_incidence", latest, inc, 150, "medium"⟩]
    else []

/-- The CFR block of detect_alerts for one metric value: skip when the metric
is NaN; above 3 emit high_cfr (severity medium). -/
def cfrAlertsVal (latest : ℕ) (iso : String) : Option ℚ → List Alert
  | none => []
  | some c =>
    if 3 < c then [⟨iso, "high_cfr", latest, c, 3, "medium"⟩] else []

/-- The incidence block of detect_alerts for one row. -/
def incidenceAlertsRow (latest : ℕ) (r : Row) : List Alert :=
  incidenceAlertsVal latest r.iso_code r.incidence_rate_100k

/-- The CFR block of detect_alerts for one row. -/
def cfrAlertsRow (latest : ℕ) (r : Row) : List Alert :=
  cfrAlertsVal latest r.iso_code r.case_fatality_rate

/-- All alerts detect_alerts appends for one row of latest_data: the
incidence block then the CFR block. -/
def rowAlerts (latest : ℕ) (r : Row) : List Alert :=
  incidenceAlertsRow latest r ++ cfrAlertsRow latest r

/-- Embeds df['date'].max(). -/
def latestDate (df : List Row) : ℕ := (df.map Row.date).foldr max 0

/-- Embeds CovidETL.detect_alerts: restrict to the rows whose date equals the
globally latest date of the dataframe, then collect each such row's alerts in
order. -/
def detect_alerts (df : List Row) : List Alert :=
  (df.filter (fun r => r.date == latestDate df)).flatMap (rowAlerts (latestDate df))

/-- Recognizes the two incidence alert kinds. -/
def isIncidenceAlert (a : Alert) : Bool :=
  a.alert_type == "very_high_incidence" || a.alert_type == "high_incidence"

/-- Recognizes the CFR alert kind. -/
def isCfrAlert (a : Alert) : Bool :=
  a.alert_type == "high_cfr"

lemma filter_isInc_rowAlerts (latest : ℕ) (r : Row) :
    (rowAlerts latest r).filter isIncidenceAlert = incidenceAlertsRow latest r := by
  unfold rowAlerts
  rw [List.filter_append]
  have h1 : (incidenceAlertsRow latest r).filter isIncidenceAlert
      = incidenceAlertsRow latest r := by
    unfold incidenceAlertsRow
    cases r.incidence_rate_100k with
    | none => rfl
    | some inc =>
      simp only [incidenceAlertsVal]
      split_ifs <;> simp [isIncidenceAlert]
  have h2 : (cfrAlertsRow latest r).filter isIncidenceAlert = [] := by
    unfold cfrAlertsRow
    cases r.case_fatality_rate with
    | none => rfl
    | some c =>
      simp only [cfrAlertsVal]
      split_ifs <;> simp [isIncidenceAlert]
  rw [h1, h2, List.append_nil]

lemma filter_isCfr_rowAlerts (latest : ℕ) (r : Row) :
    (rowAlerts latest r).filter isCfrAlert = cfrAlertsRow latest r := by
  unfold rowAlerts
  rw [List.filter_append]
  have h1 : (incidenceAlertsRow latest r).filter isCfrAlert = [] := by
    unfold incidenceAlertsRow
    cases r.incidence_rate_100k with
    | none => rfl
    | some inc =>
      simp only [incidenceAlertsVal]
      split_ifs <;> simp [isCfrAlert]
  have h2 : (cfrAlertsRow latest r).filter isCfrAlert = cfrAlertsRow latest r := by
    unfold cfrAlertsRow
    cases r.case_fatality_rate with
    | none => rfl
    | some c =>
      simp only [cfrAlertsVal]
      split_ifs <;> simp [isCfrAlert]
  rw [h1, h2, List.nil_append]

lemma country_of_rowAlerts (latest : ℕ) (r : Row) (a : Alert)
    (h : a ∈ rowAlerts latest r) : a.country_code = r.iso_code := by
  unfold rowAlerts incidenceAlertsRow cfrAlertsRow at h
  rw [List.mem_append] at h
  rcases h with h | h
  · cases hi : r.incidence_rate_100k with
    | none => rw [hi] at h; simp [incidenceAlertsVal] at h
    | some inc =>
      rw [hi] at h
      simp only [incidenceAlertsVal] at h
      split_ifs at h <;> simp at h <;> rw [h]
  · cases hc : r.case_fatality_rate with
    | none => rw [hc] at h; simp [cfrAlertsVal] at h
    | some c =>
      rw [hc] at h
      simp only [cfrAlertsVal] at h
      split_ifs at h <;> simp at h
      rw [h]

/-- C7: for every evaluated row, the incidence alerts are exactly one
very_high_incidence (severity high, threshold 300) when the rate exceeds 300,
exactly one high_incidence (severity medium, threshold 150) when it lies in
(150, 300], and none otherwise or when the metric is missing; the CFR alert
(high_cfr, threshold 3, severity medium) is produced independently exactly
when case_fatality_rate is present and exceeds 3; the row's alert list is the
incidence part followed by the CFR part, so the two can co-occur and a
missing metric yields no alert and no error. -/
theorem rowAlerts_thresholds :
    ∀ (latest : ℕ) (r : Row),
    (∀ inc : ℚ, r.incidence_rate_100k = some inc →
      ((300 < inc →
        (rowAlerts latest r).filter isIncidenceAlert
          = [⟨r.iso_code, "very_high_incidence", latest, inc, 300, "high"⟩])
       ∧ (150 < inc → inc ≤ 300 →
        (rowAlerts latest r).filter isIncidenceAlert
          = [⟨r.iso_code, "high_incidence", latest, inc, 150, "medium"⟩])
       ∧ (inc ≤ 150 → (rowAlerts latest r).filter isIncidenceAlert = [])))
    ∧ (r.incidence_rate_100k = none →
        (rowAlerts latest r).filter isIncidenceAlert = [])
    ∧ (∀ c : ℚ, r.case_fatality_rate = some c →
      ((3 < c →
        (rowAlerts latest r).filter isCfrAlert
          = [⟨r.iso_code, "high_cfr", latest, c, 3, "medium"⟩])
       ∧ (c ≤ 3 → (rowAlerts latest r).filter isCfrAlert = [])))
    ∧ (r.case_fatality_rate = none → (rowAlerts latest r).filter isCfrAlert = [])
    ∧ rowAlerts latest r
        = (rowAlerts latest r).filter isIncidenceAlert
          ++ (rowAlerts latest r).filter isCfrAlert := by
  intro latest r
  rw [filter_isInc_rowAlerts, filter_isCfr_rowAlerts]
  refine ⟨?_, ?_, ?_, ?_, rfl⟩
  · intro inc hi
    unfold incidenceAlertsRow
    rw [hi]
    simp only [incidenceAlertsVal]
    refine ⟨fun h3 => by rw [if_pos h3], fun h1 h2 => ?_, fun h1 => ?_⟩
    · rw [if_neg (not_lt.mpr h2), if_pos h1]
    · rw [if_neg (not_lt.mpr (le_trans h1 (by norm_num))), if_neg (not_lt.mpr h1)]
  · intro hi
    unfold incidenceAlertsRow
    rw [hi]
    rfl
  · intro c hc
    unfold cfrAlertsRow
    rw [hc]
    simp only [cfrAlertsVal]
    exact ⟨fun h3 => by rw [if_pos h3], fun h1 => by rw [if_neg (not_lt.mpr h1)]⟩
  · intro hc
    unfold cfrAlertsRow
    rw [hc]
    rfl

/-- C7 witness: the theorem applied to a row with incidence 350 and CFR 4 on
date 5 — exactly one very_high_incidence alert and one high_cfr alert. -/
theorem rowAlerts_thresholds_witness :
    (rowAlerts 5 { blankRow "FRA" 5 with
        incidence_rate_100k := some 350, case_fatality_rate := some 4 }).filter
        isIncidenceAlert
      = [⟨"FRA", "very_high_incidence", 5, 350, 300, "high"⟩]
    ∧ (rowAlerts 5 { blankRow "FRA" 5 with
        incidence_rate_100k := some 350, case_fatality_rate := some 4 }).filter
        isCfrAlert
      = [⟨"FRA", "high_cfr", 5, 4, 3, "medium"⟩] :=
  ⟨((rowAlerts_thresholds 5 _).1 350 rfl).1 (by norm_num),
   ((rowAlerts_thresholds 5 _).2.2.1 4 rfl).1 (by norm_num)⟩

/-- A row of entity AAA whose last date (1) is earlier than the dataset's
latest date, with an incidence far above every threshold. -/
def rowStale : Row := { blankRow "AAA" 1 with incidence_rate_100k := some 400 }

/-- A row of entity BBB at the dataset's latest date (2) with an incidence
below every threshold. -/
def rowFresh : Row := { blankRow "BBB" 2 with incidence_rate_100k := some 10 }

/-- A row of entity BBB at the dataset's latest date (2) whose incidence 200
breaches the high_incidence threshold. -/
def rowFreshHigh : Row := { blankRow "BBB" 2 with incidence_rate_100k := some 200 }

/-- C1 counterexample: entity AAA's chronologically last row (date 1,
incidence 400, breaching every incidence threshold) is never evaluated
because entity BBB has a later date (2): the detector emits no alert at all,
contradicting the claim that every entity's own most recent observation is
checked against the thresholds. -/
theorem detect_alerts_misses_entity_with_earlier_last_date :
    detect_alerts [rowStale, rowFresh] = [] := by
  decide

/-- C1 amended: the detector evaluates exactly the rows whose date equals the
dataset's global maximum date: an entity none of whose rows bears that date
contributes no alert (its own last row is skipped), while every row at the
global maximum date has all of its threshold alerts included in the result. -/
theorem detect_alerts_latest_global_only :
    ∀ (df : List Row) (c : String),
    ((∀ r ∈ df, r.iso_code = c → r.date ≠ latestDate df) →
      ∀ a ∈ detect_alerts df, a.country_code ≠ c)
    ∧ (∀ r ∈ df, r.date = latestDate df →
      ∀ a ∈ rowAlerts (latestDate df) r, a ∈ detect_alerts df) := by
  intro df c
  constructor
  · intro h a ha
    unfold detect_alerts at ha
    rw [List.mem_flatMap] at ha
    obtain ⟨r, hr, har⟩ := ha
    rw [List.mem_filter] at hr
    obtain ⟨hrdf, hrdate⟩ := hr
    rw [country_of_rowAlerts _ _ _ har]
    intro hiso
    exact h r hrdf hiso (by simpa using hrdate)
  · intro r hr hdate a ha
    unfold detect_alerts
    rw [List.mem_flatMap]
    exact ⟨r, List.mem_filter.mpr ⟨hr, by simp [hdate]⟩, ha⟩

/-- C1 amended witness: on the two-row dataset where BBB's latest-date row
breaches the high_incidence threshold, the emitted alert belongs to a row at
the global latest date, is in the detector's output, and is not for the
stale entity AAA. -/
theorem detect_alerts_latest_global_only_witness :
    (⟨"BBB", "high_incidence", 2, 200, 150, "medium"⟩ : Alert)
        ∈ detect_alerts [rowStale, rowFreshHigh]
    ∧ (⟨"BBB", "high_incidence", 2, 200, 150, "medium"⟩ : Alert).country_code ≠ "AAA" :=
  ⟨(detect_alerts_latest_global_only [rowStale, rowFreshHigh] "AAA").2
      rowFreshHigh (by decide) (by decide) _ (by decide),
   (detect_alerts_latest_global_only [rowStale, rowFreshHigh] "AAA").1
      (by decide) _
      ((detect_alerts_latest_global_only [rowStale, rowFreshHigh] "AAA").2
        rowFreshHigh (by decide) (by decide) _ (by decide))⟩

/-!
## Alert persistence (etl_postgres.py, save_alerts, lines 361-389)
-/

/-- A row of the covid_alerts table; is_active starts true on insert
(column default) and is set false by the resolution update. The resolved_at
timestamp is not modelled (only the active/resolved state matters here). -/
structure StoredAlert where
  country_code : String
  alert_type : String
  alert_date : ℕ
  metric_value : ℚ
  threshold_value : ℚ
  severity : String
  is_active : Bool
deriving Repr, DecidableEq

/-- Whether some newly detected alert has this stored alert's
(country_code, alert_type) pair — the WHERE clause of the update loop in
save_alerts, accumulated over all new alerts. -/
def matchesNew (alerts : List Alert) (s : StoredAlert) : Bool :=
  alerts.any (fun n => n.country_code == s.country_code && n.alert_type == s.alert_type)

/-- The effect of the per-alert UPDATE loop in save_alerts: every active
stored alert whose (country_code, alert_type) pair occurs among the new
alerts is deactivated. -/
def deactivateOld (alerts : List Alert) (db : List StoredAlert) : List StoredAlert :=
  db.map (fun s =>
    if s.is_active && matchesNew alerts s then { s with is_active := false } else s)

/-- The stored form of a newly inserted alert (is_active defaults to true). -/
def toStored (a : Alert) : StoredAlert :=
  ⟨a.country_code, a.alert_type, a.alert_date, a.metric_value, a.threshold_value,
    a.severity, true⟩

/-- Embeds CovidETL.save_alerts as a transformer of the alerts table: with no
new alerts it returns immediately (the early return), otherwise it runs the
deactivation updates and inserts the new alerts. -/
def save_alerts (alerts : List Alert) (db : List StoredAlert) : List StoredAlert :=
  if alerts.isEmpty then db
  else deactivateOld alerts db ++ alerts.map toStored

/-- Number of active stored alerts for one (country, kind) pair. -/
def countActive (db : List StoredAlert) (c t : String) : ℕ :=
  db.countP (fun s => s.is_active && s.country_code == c && s.alert_type == t)

/-- Number of new alerts carrying one (country, kind) pair. -/
def pairCount (alerts : List Alert) (c t : String) : ℕ :=
  alerts.countP (fun a => a.country_code == c && a.alert_type == t)

/-- A previously active stored alert for entity BBB of kind high_incidence. -/
def staleStored : StoredAlert := ⟨"BBB", "high_incidence", 1, 200, 150, "medium", true⟩

lemma countActive_deactivateOld_of_mem (alerts : List Alert) (db : List StoredAlert)
    {a : Alert} (ha : a ∈ alerts) :
    countActive (deactivateOld alerts db) a.country_code a.alert_type = 0 := by
  unfold countActive deactivateOld
  rw [List.countP_eq_zero]
  intro s hs
  rw [List.mem_map] at hs
  obtain ⟨s0, _, rfl⟩ := hs
  by_cases hcond : s0.is_active && matchesNew alerts s0
  · rw [if_pos hcond]
    simp
  · rw [if_neg hcond]
    rw [Bool.and_eq_true] at hcond
    push_neg at hcond
    intro hp
    simp only [Bool.and_eq_true, beq_iff_eq] at hp
    obtain ⟨⟨hact, hcc⟩, hat⟩ := hp
    have : matchesNew alerts s0 = true := by
      unfold matchesNew
      rw [List.any_eq_true]
      exact ⟨a, ha, by simp [hcc, hat]⟩
    exact absurd this (by simpa [hact] using hcond)

lemma countActive_deactivateOld_of_absent (alerts : List Alert) (db : List StoredAlert)
    {c t : String} (h : pairCount alerts c t = 0) :
    countActive (deactivateOld alerts db) c t = countActive db c t := by
  unfold countActive deactivateOld
  rw [List.countP_map]
  refine List.countP_congr ?_
  intro s _
  by_cases hcond : s.is_active && matchesNew alerts s
  · have hm : matchesNew alerts s = true := by
      have h2 := hcond
      rw [Bool.and_eq_true] at h2
      exact h2.2
    unfold matchesNew at hm
    rw [List.any_eq_true] at hm
    obtain ⟨n, hn, hnp⟩ := hm
    simp only [Bool.and_eq_true, beq_iff_eq] at hnp
    have hne : ¬ (s.country_code = c ∧ s.alert_type = t) := by
      rintro ⟨rfl, rfl⟩
      unfold pairCount at h
      rw [List.countP_eq_zero] at h
      exact h n hn (by simp [hnp.1, hnp.2])
    simp only [Function.comp_apply, if_pos hcond]
    constructor
    · intro hp
      simp only [Bool.and_eq_true, beq_iff_eq] at hp
      simp at hp
    · intro hp
      simp only [Bool.and_eq_true, beq_iff_eq] at hp
      exact absurd ⟨hp.1.2, hp.2⟩ hne
  · simp only [Function.comp_apply, if_neg hcond]

lemma countActive_newStored (alerts : List Alert) (c t : String) :
    countActive (alerts.map toStored) c t = pairCount alerts c t := by
  unfold countActive pairCount
  rw [List.countP_map]
  refine List.countP_congr ?_
  intro a _
  simp [toStored]

lemma pairCount_eq_one {alerts : List Alert}
    (hnd : (alerts.map (fun a => (a.country_code, a.alert_type))).Nodup)
    {a : Alert} (ha : a ∈ alerts) :
    pairCount alerts a.country_code a.alert_type = 1 := by
  induction alerts with
  | nil => cases ha
  | cons b rest ih =>
    rw [List.map_cons, List.nodup_cons] at hnd
    unfold pairCount
    rw [List.countP_cons]
    rcases List.mem_cons.mp ha with rfl | hmem
    · have hz : List.countP
          (fun x => x.country_code == a.country_code && x.alert_type == a.alert_type)
          rest = 0 := by
        rw [List.countP_eq_zero]
        intro x hx hp
        simp only [Bool.and_eq_true, beq_iff_eq] at hp
        exact hnd.1 (by
          rw [List.mem_map]
          exact ⟨x, hx, by rw [hp.1, hp.2]⟩)
      rw [hz]
      simp
    · have h1 := ih hnd.2 hmem
      unfold pairCount at h1
      rw [h1]
      have hb2 : ¬ (b.country_code == a.country_code && b.alert_type == a.alert_type) = true := by
        intro hp
        simp only [Bool.and_eq_true, beq_iff_eq] at hp
        exact hnd.1 (by
          rw [List.mem_map]
          exact ⟨a, hmem, by rw [hp.1, hp.2]⟩)
      rw [if_neg hb2]

lemma save_alerts_countActive_of_mem (alerts : List Alert) (db : List StoredAlert)
    (hnd : (alerts.map (fun a => (a.country_code, a.alert_type))).Nodup)
    {a : Alert} (ha : a ∈ alerts) :
    countActive (save_alerts alerts db) a.country_code a.alert_type = 1 := by
  have hne : alerts.isEmpty = false := by
    cases alerts with
    | nil => cases ha
    | cons b rest => rfl
  unfold save_alerts
  rw [hne]
  simp only [Bool.false_eq_true, if_false]
  unfold countActive
  rw [List.countP_append]
  have h1 := countActive_deactivateOld_of_mem alerts db ha
  have h2 := countActive_newStored alerts a.country_code a.alert_type
  unfold countActive at h1 h2
  rw [h1, h2]
  simpa using pairCount_eq_one hnd ha

/-- C3 counterexample: a pass on which entity BBB's latest row (incidence 10)
no longer breaches high_incidence detects no alert, so save_alerts is handed
the empty list and returns immediately: the previously active high_incidence
alert for BBB stays active — an (entity, kind) pair that no longer breaches
retains an active alert after the detection-and-save pass, contradicting the
claim. -/
theorem save_alerts_keeps_stale_active :
    detect_alerts [rowFresh] = []
    ∧ countActive (save_alerts (detect_alerts [rowFresh]) [staleStored])
        "BBB" "high_incidence" = 1 := by
  constructor <;> decide

/-- C3 amended: for each newly detected alert (with distinct (entity, kind)
pairs in one batch), the save step deactivates every previously active stored
alert of the same (entity, kind) before inserting the new one, so exactly one
active alert per still-breaching pair remains, and repeating the same save
leaves still exactly one (no duplicates accumulate); but a pair with no new
alert in the batch is untouched, so active alerts of kinds that no longer
breach are not resolved and remain active. -/
theorem save_alerts_active_unique :
    ∀ (alerts : List Alert) (db : List StoredAlert),
    ((alerts.map (fun a => (a.country_code, a.alert_type))).Nodup →
      ∀ a ∈ alerts,
        countActive (save_alerts alerts db) a.country_code a.alert_type = 1
        ∧ countActive (save_alerts alerts (save_alerts alerts db))
            a.country_code a.alert_type = 1)
    ∧ (∀ c t : String, pairCount alerts c t = 0 →
        countActive (save_alerts alerts db) c t = countActive db c t) := by
  intro alerts db
  constructor
  · intro hnd a ha
    exact ⟨save_alerts_countActive_of_mem alerts db hnd ha,
      save_alerts_countActive_of_mem alerts (save_alerts alerts db) hnd ha⟩
  · intro c t h
    cases alerts with
    | nil => rfl
    | cons b rest =>
      unfold save_alerts
      simp only [List.isEmpty_cons, Bool.false_eq_true, if_false]
      unfold countActive
      rw [List.countP_append]
      have h1 := countActive_deactivateOld_of_absent (b :: rest) db h
      have h2 := countActive_newStored (b :: rest) c t
      unfold countActive at h1 h2
      rw [h1, h2, h, Nat.add_zero]

/-- C3 amended witness: saving one very_high_incidence alert for FRA twice
over a database already containing an active very_high_incidence alert for
FRA leaves exactly one active alert of that pair, while the stale BBB
high_incidence alert (absent from the batch) keeps its count. -/
theorem save_alerts_active_unique_witness :
    countActive
      (save_alerts [⟨"FRA", "very_high_incidence", 3, 400, 300, "high"⟩]
        (save_alerts [⟨"FRA", "very_high_incidence", 3, 400, 300, "high"⟩]
          [⟨"FRA", "very_high_incidence", 2, 350, 300, "high", true⟩, staleStored]))
      "FRA" "very_high_incidence" = 1
    ∧ countActive
        (save_alerts [⟨"FRA", "very_high_incidence", 3, 400, 300, "high"⟩]
          [⟨"FRA", "very_high_incidence", 2, 350, 300, "high", true⟩, staleStored])
        "BBB" "high_incidence"
      = countActive [⟨"FRA", "very_high_incidence", 2, 350, 300, "high", true⟩, staleStored]
          "BBB" "high_incidence" :=
  ⟨((save_alerts_active_unique [⟨"FRA", "very_high_incidence", 3, 400, 300, "high"⟩]
      [⟨"FRA", "very_high_incidence", 2, 350, 300, "high", true⟩, staleStored]).1
      (by decide) ⟨"FRA", "very_high_incidence", 3, 400, 300, "high"⟩ (by decide)).2,
   (save_alerts_active_unique [⟨"FRA", "very_high_incidence", 3, 400, 300, "high"⟩]
      [⟨"FRA", "very_high_incidence", 2, 350, 300, "high", true⟩, staleStored]).2
      "BBB" "high_incidence" (by decide)⟩

/-!
## Run structure of the transformation engine (transformation_script.py,
main, lines 270-300, and generate_quality_report, lines 217-222)
-/

/-- The stages main executes in order; each of the underlying functions
re-raises any exception, aborting the run at the first failing stage. -/
inductive Stage where
  | loadRaw
  | filterClean
  | handleMissing
  | deriveMetrics
  | qualityReport
  | saveData
deriving Repr, DecidableEq

/-- Observable outcome of one invocation of main: whether the quality report
file was written to disk (generate_quality_report writes it before
returning), whether the processed parquet file was written
(save_processed_data), and whether main returned its (df, report) pair. -/
structure RunOutcome where
  reportFileWritten : Bool
  dataFileWritten : Bool
  completed : Bool
deriving Repr, DecidableEq

/-- Embeds main: the six stages run in order; the environment decides which
stage raises (fails is true on a stage that would raise when reached). The
run aborts at the first failing stage, keeping the side effects of the
stages already finished; generate_quality_report persists the report file
inside stage 5, before save_processed_data runs as stage 6. -/
def mainRun (fails : Stage → Bool) : RunOutcome :=
  if fails Stage.loadRaw then ⟨false, false, false⟩
  else if fails Stage.filterClean then ⟨false, false, false⟩
  else if fails Stage.handleMissing then ⟨false, false, false⟩
  else if fails Stage.deriveMetrics then ⟨false, false, false⟩
  else if fails Stage.qualityReport then ⟨false, false, false⟩
  else if fails Stage.saveData then ⟨true, false, false⟩
  else ⟨true, true, true⟩

/-- The environment in which only the final save of the processed data
raises (for example a full disk when writing the parquet file). -/
def failAtSave : Stage → Bool := fun s => s == Stage.saveData

/-- C8 counterexample: when saving the enriched record set fails, the run
fails (nothing is returned) yet the quality report file has already been
written — a partial output persists, contradicting the all-or-nothing
claim. -/
theorem mainRun_report_survives_save_failure :
    mainRun failAtSave = ⟨true, false, false⟩ := by
  decide

/-- C8 amended: a run either completes every stage — exactly when no stage
fails — and then produces all outputs, or aborts at the first failing stage
and returns nothing; but side effects of stages finished before the failure
persist: a failure in any stage up to the derived-metrics step leaves no
output at all, while a failure in the final save leaves the already-written
quality report file behind. -/
theorem mainRun_stage_effects :
    ∀ fails : Stage → Bool,
    ((mainRun fails).completed = true ↔ ∀ s, fails s = false)
    ∧ ((mainRun fails).completed = true →
        (mainRun fails).reportFileWritten = true
          ∧ (mainRun fails).dataFileWritten = true)
    ∧ ((mainRun fails).dataFileWritten = true →
        (mainRun fails).reportFileWritten = true)
    ∧ (fails Stage.loadRaw = true ∨ fails Stage.filterClean = true
        ∨ fails Stage.handleMissing = true ∨ fails Stage.deriveMetrics = true →
        (mainRun fails).reportFileWritten = false
          ∧ (mainRun fails).dataFileWritten = false
          ∧ (mainRun fails).completed = false)
    ∧ ((∀ s, s ≠ Stage.saveData → fails s = false) → fails Stage.saveData = true →
        mainRun fails = ⟨true, false, false⟩) := by
  intro fails
  rcases h1 : fails Stage.loadRaw <;> rcases h2 : fails Stage.filterClean <;>
    rcases h3 : fails Stage.handleMissing <;> rcases h4 : fails Stage.deriveMetrics <;>
    rcases h5 : fails Stage.qualityReport <;> rcases h6 : fails Stage.saveData <;>
    refine ⟨⟨fun hc => ?_, fun hall => ?_⟩, ?_, ?_, ?_, fun hothers hsave => ?_⟩ <;>
      simp_all [mainRun]
  all_goals (intro s; cases s <;> simp_all)

/-- C8 amended witness: in the environment where only the final save fails,
the amended theorem yields the failed run with the report file written; in
the all-succeeding environment it yields completion with both files
written. -/
theorem mainRun_stage_effects_witness :
    mainRun failAtSave = ⟨true, false, false⟩
    ∧ (mainRun (fun _ => false)).completed = true :=
  ⟨(mainRun_stage_effects failAtSave).2.2.2.2
      (fun s hs => by cases s <;> simp_all [failAtSave]) (by decide),
   (mainRun_stage_effects (fun _ => false)).1.mpr (fun s => rfl)⟩

/-!
## Grouped imputation (transformation_script.py, handle_missing_values,
lines 101-144) and rolling averages (calculate_derived_metrics, lines 167-175)

groupby('iso_code') enumerates each distinct entity code once; because
filter_and_clean sorts the dataframe by (iso_code, date), concatenating the
per-group results in first-occurrence order reproduces the positional
alignment performed by the scripts.
-/

/-- First operand if present, otherwise the second (how a cell combines with
the forward-fill carry). -/
def oelse (x y : Option ℚ) : Option ℚ :=
  match x with
  | some v => some v
  | none => y

/-- Distinct keys of a column in first-occurrence order, the groups of
groupby on the sorted dataframe. -/
def groupKeysAux (seen : List String) : List String → List String
  | [] => []
  | c :: rest =>
    if c ∈ seen then groupKeysAux seen rest
    else c :: groupKeysAux (c :: seen) rest

/-- Distinct keys of a column in first-occurrence order. -/
def groupKeys (l : List String) : List String := groupKeysAux [] l

/-- Forward fill of one column with the carried last-seen value, the pandas
fillna(method='ffill') applied to one entity's chronological cell list. -/
def ffill (acc : Option ℚ) : List (Option ℚ) → List (Option ℚ)
  | [] => []
  | none :: rest => acc :: ffill acc rest
  | some v :: rest => some v :: ffill (some v) rest

/-- The most recent present value of a cell list, none when every cell is
missing; written from the specification's words to characterize forward
fill. -/
def lastPresent : List (Option ℚ) → Option ℚ
  | [] => none
  | x :: rest => oelse (lastPresent rest) x

/-- Forward-fill carry for the grouped columns of handle_missing_values:
the five cumulative counters, population and stringency_index. -/
structure Carry where
  total_cases : Option ℚ
  total_deaths : Option ℚ
  total_vaccinations : Option ℚ
  people_vaccinated : Option ℚ
  people_fully_vaccinated : Option ℚ
  population : Option ℚ
  stringency_index : Option ℚ

/-- The carry at the start of each entity's sequence: nothing seen yet. -/
def Carry.init : Carry := ⟨none, none, none, none, none, none, none⟩

/-- One entity's pass of handle_missing_values: forward-fill the cumulative
counters, population and stringency_index from the carry, and replace a
missing daily counter (new_cases, new_deaths, new_vaccinations) by 0. -/
def imputeFrom (acc : Carry) : List Row → List Row
  | [] => []
  | r :: rest =>
    let tc := oelse r.total_cases acc.total_cases
    let td := oelse r.total_deaths acc.total_deaths
    let tv := oelse r.total_vaccinations acc.total_vaccinations
    let pv := oelse r.people_vaccinated acc.people_vaccinated
    let pf := oelse r.people_fully_vaccinated acc.people_fully_vaccinated
    let pop := oelse r.population acc.population
    let si := oelse r.stringency_index acc.stringency_index
    { r with
        total_cases := tc, total_deaths := td, total_vaccinations := tv,
        people_vaccinated := pv, people_fully_vaccinated := pf,
        population := pop, stringency_index := si,
        new_cases := some (r.new_cases.getD 0),
        new_deaths := some (r.new_deaths.getD 0),
        new_vaccinations := some (r.new_vaccinations.getD 0) }
      :: imputeFrom ⟨tc, td, tv, pv, pf, pop, si⟩ rest

/-- Embeds handle_missing_values: each per-entity group (groupby('iso_code'))
is imputed independently starting from the empty carry, and the groups are
concatenated back in order. -/
def handle_missing_values (df : List Row) : List Row :=
  (groupKeys (df.map Row.iso_code)).flatMap
    (fun c => imputeFrom Carry.init (df.filter (fun r => r.iso_code == c)))

/-- The centered window of rolling(window=7, center=True) at position i of
one entity's cell list: rows i-3 through i+3, truncated at the sequence
boundaries. -/
def windowSlice (xs : List (Option ℚ)) (i : ℕ) : List (Option ℚ) :=
  (xs.drop (i - 3)).take (i + 4 - (i - 3))

/-- The mean of the present values of a window; none when fewer than
min_periods = 1 values are present. -/
def windowMean (w : List (Option ℚ)) : Option ℚ :=
  let vs := w.filterMap id
  if vs.length = 0 then none else some (vs.sum / (vs.length : ℚ))

/-- Embeds Series.rolling(window=7, center=True, min_periods=1).mean() over
one entity's chronological cell list. -/
def rollingCenter7 (xs : List (Option ℚ)) : List (Option ℚ) :=
  (List.range xs.length).map (fun i => windowMean (windowSlice xs i))

/-- Embeds the groupby('iso_code') rolling mean of calculate_derived_metrics
for one column selected by get: each entity's sequence is averaged
independently and the groups are concatenated back in order. -/
def groupbyRolling7 (df : List Row) (get : Row → Option ℚ) : List (Option ℚ) :=
  (groupKeys (df.map Row.iso_code)).flatMap
    (fun c => rollingCenter7 ((df.filter (fun r => r.iso_code == c)).map get))

lemma oelse_none_right (x : Option ℚ) : oelse x none = x := by
  cases x <;> rfl

lemma lastPresent_none_cons (l : List (Option ℚ)) :
    lastPresent (none :: l) = lastPresent l := by
  cases h : lastPresent l <;> simp [lastPresent, oelse, h]

lemma groupKeysAux_skip (seen : List String) (l l2 : List String)
    (h : ∀ x ∈ l, x ∈ seen) :
    groupKeysAux seen (l ++ l2) = groupKeysAux seen l2 := by
  induction l with
  | nil => rfl
  | cons c rest ih =>
    rw [List.cons_append]
    simp only [groupKeysAux, if_pos (h c (List.mem_cons_self c rest))]
    exact ih (fun x hx => h x (List.mem_cons_of_mem c hx))

lemma groupKeysAux_block (seen : List String) (l l2 : List String) (a : String)
    (ha : a ∉ seen) (h : ∀ x ∈ l, x = a) (hne : l ≠ []) :
    groupKeysAux seen (l ++ l2) = a :: groupKeysAux (a :: seen) l2 := by
  cases l with
  | nil => exact absurd rfl hne
  | cons c rest =>
    have hc : c = a := h c (List.mem_cons_self c rest)
    subst hc
    rw [List.cons_append]
    simp only [groupKeysAux, if_neg ha]
    congr 1
    exact groupKeysAux_skip _ rest l2
      (fun x hx => by
        rw [h x (List.mem_cons_of_mem c hx)]
        exact List.mem_cons_self c seen)

lemma groupKeys_block_single (l : List String) (a : String)
    (h : ∀ x ∈ l, x = a) (hne : l ≠ []) : groupKeys l = [a] := by
  have hb := groupKeysAux_block [] l [] a (by simp) h hne
  rw [List.append_nil] at hb
  exact hb

lemma groupKeys_block_pair (l1 l2 : List String) (a b : String) (hab : a ≠ b)
    (h1 : ∀ x ∈ l1, x = a) (h2 : ∀ x ∈ l2, x = b)
    (hne1 : l1 ≠ []) (hne2 : l2 ≠ []) :
    groupKeys (l1 ++ l2) = [a, b] := by
  unfold groupKeys
  rw [groupKeysAux_block [] l1 l2 a (by simp) h1 hne1]
  have hb := groupKeysAux_block [a] l2 [] b
    (by simpa using Ne.symm hab) h2 hne2
  rw [List.append_nil] at hb
  rw [hb]
  rfl

lemma filter_block_self {df : List Row} {a : String}
    (hA : ∀ r ∈ df, r.iso_code = a) :
    df.filter (fun r => r.iso_code == a) = df :=
  List.filter_eq_self.mpr (fun r hr => by simp [hA r hr])

lemma filter_block_other {df : List Row} {a b : String} (hab : b ≠ a)
    (hA : ∀ r ∈ df, r.iso_code = b) :
    df.filter (fun r => r.iso_code == a) = [] :=
  List.filter_eq_nil_iff.mpr (fun r hr => by simp [hA r hr, hab])

lemma group_apply_single {γ : Type} (F : List Row → List γ)
    {df : List Row} {a : String}
    (hA : ∀ r ∈ df, r.iso_code = a) (hne : df ≠ []) :
    (groupKeys (df.map Row.iso_code)).flatMap
      (fun c => F (df.filter (fun r => r.iso_code == c))) = F df := by
  have hkeys : groupKeys (df.map Row.iso_code) = [a] := by
    apply groupKeys_block_single
    · intro x hx
      rw [List.mem_map] at hx
      obtain ⟨r, hr, rfl⟩ := hx
      exact hA r hr
    · simpa using hne
  rw [hkeys]
  simp only [List.flatMap_cons, List.flatMap_nil, List.append_nil]
  rw [filter_block_self hA]

lemma group_apply_pair {γ : Type} (F : List Row → List γ)
    {dfA dfB : List Row} {a b : String} (hab : a ≠ b)
    (hA : ∀ r ∈ dfA, r.iso_code = a) (hB : ∀ r ∈ dfB, r.iso_code = b)
    (hneA : dfA ≠ []) (hneB : dfB ≠ []) :
    (groupKeys ((dfA ++ dfB).map Row.iso_code)).flatMap
      (fun c => F ((dfA ++ dfB).filter (fun r => r.iso_code == c)))
      = F dfA ++ F dfB := by
  have hkeys : groupKeys ((dfA ++ dfB).map Row.iso_code) = [a, b] := by
    rw [List.map_append]
    apply groupKeys_block_pair _ _ a b hab
    · intro x hx
      rw [List.mem_map] at hx
      obtain ⟨r, hr, rfl⟩ := hx
      exact hA r hr
    · intro x hx
      rw [List.mem_map] at hx
      obtain ⟨r, hr, rfl⟩ := hx
      exact hB r hr
    · simpa using hneA
    · simpa using hneB
  rw [hkeys]
  have hfa : (dfA ++ dfB).filter (fun r => r.iso_code == a) = dfA := by
    rw [List.filter_append, filter_block_self hA,
      filter_block_other (Ne.symm hab) hB, List.append_nil]
  have hfb : (dfA ++ dfB).filter (fun r => r.iso_code == b) = dfB := by
    rw [List.filter_append, filter_block_self hB,
      filter_block_other hab hA, List.nil_append]
  simp only [List.flatMap_cons, List.flatMap_nil, List.append_nil, hfa, hfb]

lemma ffill_length (acc : Option ℚ) (xs : List (Option ℚ)) :
    (ffill acc xs).length = xs.length := by
  induction xs generalizing acc with
  | nil => rfl
  | cons x rest ih =>
    cases x <;> simp [ffill, ih]

lemma ffill_getD (acc : Option ℚ) (xs : List (Option ℚ)) (i : ℕ)
    (h : i < xs.length) :
    (ffill acc xs).getD i none
      = oelse (oelse (xs.getD i none) (lastPresent (xs.take i))) acc := by
  induction xs generalizing acc i with
  | nil => cases h
  | cons x rest ih =>
    cases i with
    | zero =>
      cases x <;> simp [ffill, lastPresent, oelse]
    | succ i =>
      rw [List.length_cons, Nat.succ_lt_succ_iff] at h
      cases x with
      | none =>
        show (ffill acc rest).getD i none = _
        rw [ih acc i h]
        rw [List.getD_cons_succ, List.take_succ_cons, lastPresent_none_cons]
      | some v =>
        show (ffill (some v) rest).getD i none = _
        rw [ih (some v) i h]
        rw [List.getD_cons_succ, List.take_succ_cons]
        have hl : lastPresent (some v :: List.take i rest)
            = oelse (lastPresent (List.take i rest)) (some v) := rfl
        rw [hl]
        cases hX : rest.getD i none <;>
          cases hY : lastPresent (List.take i rest) <;> simp [oelse]

lemma imputeFrom_map_total_cases (acc : Carry) (rows : List Row) :
    (imputeFrom acc rows).map Row.total_cases
      = ffill acc.total_cases (rows.map Row.total_cases) := by
  induction rows generalizing acc with
  | nil => rfl
  | cons r rest ih =>
    cases h : r.total_cases <;> simp [imputeFrom, ffill, oelse, h, ih]

lemma imputeFrom_map_total_deaths (acc : Carry) (rows : List Row) :
    (imputeFrom acc rows).map Row.total_deaths
      = ffill acc.total_deaths (rows.map Row.total_deaths) := by
  induction rows generalizing acc with
  | nil => rfl
  | cons r rest ih =>
    cases h : r.total_deaths <;> simp [imputeFrom, ffill, oelse, h, ih]

lemma imputeFrom_map_total_vaccinations (acc : Carry) (rows : List Row) :
    (imputeFrom acc rows).map Row.total_vaccinations
      = ffill acc.total_vaccinations (rows.map Row.total_vaccinations) := by
  induction rows generalizing acc with
  | nil => rfl
  | cons r rest ih =>
    cases h : r.total_vaccinations <;> simp [imputeFrom, ffill, oelse, h, ih]

lemma imputeFrom_map_people_vaccinated (acc : Carry) (rows : List Row) :
    (imputeFrom acc rows).map Row.people_vaccinated
      = ffill acc.people_vaccinated (rows.map Row.people_vaccinated) := by
  induction rows generalizing acc with
  | nil => rfl
  | cons r rest ih =>
    cases h : r.people_vaccinated <;> simp [imputeFrom, ffill, oelse, h, ih]

lemma imputeFrom_map_people_fully_vaccinated (acc : Carry) (rows : List Row) :
    (imputeFrom acc rows).map Row.people_fully_vaccinated
      = ffill acc.people_fully_vaccinated (rows.map Row.people_fully_vaccinated) := by
  induction rows generalizing acc with
  | nil => rfl
  | cons r rest ih =>
    cases h : r.people_fully_vaccinated <;> simp [imputeFrom, ffill, oelse, h, ih]

/-- An entity XXX row with the given date and total_cases cell. -/
def rowX (d : ℕ) (tc : Option ℚ) : Row := { blankRow "XXX" d with total_cases := tc }

/-- A single entity YYY row with total_cases 999. -/
def rowY : Row := { blankRow "YYY" 5 with total_cases := some 999 }

/-- The forward-fill example dataframe: entity XXX with cumulative sequence
[100, missing, missing, 140] followed by entity YYY with 999. -/
def exampleDf : List Row :=
  [rowX 1 (some 100), rowX 2 none, rowX 3 none, rowX 4 (some 140), rowY]

/-- C5: forward fill preserves length; each position of a forward-filled
column holds its own value when present, otherwise the most recent earlier
present value, otherwise stays missing; under handle_missing_values each of
the five cumulative-counter columns equals the per-entity forward fill of
that column (groups are imputed independently); imputing two stacked
single-entity blocks equals imputing each block alone (no value ever crosses
entities); and the [100, missing, missing, 140] example fills to
[100, 100, 100, 140] with the other entity's 999 untouched. -/
theorem ffill_per_entity :
    (∀ (acc : Option ℚ) (xs : List (Option ℚ)), (ffill acc xs).length = xs.length)
    ∧ (∀ (xs : List (Option ℚ)) (i : ℕ), i < xs.length →
        (ffill none xs).getD i none
          = oelse (xs.getD i none) (lastPresent (xs.take i)))
    ∧ (∀ df : List Row,
        (handle_missing_values df).map Row.total_cases
          = (groupKeys (df.map Row.iso_code)).flatMap
              (fun c => ffill none
                ((df.filter (fun r => r.iso_code == c)).map Row.total_cases))
        ∧ (handle_missing_values df).map Row.total_deaths
          = (groupKeys (df.map Row.iso_code)).flatMap
              (fun c => ffill none
                ((df.filter (fun r => r.iso_code == c)).map Row.total_deaths))
        ∧ (handle_missing_values df).map Row.total_vaccinations
          = (groupKeys (df.map Row.iso_code)).flatMap
              (fun c => ffill none
                ((df.filter (fun r => r.iso_code == c)).map Row.total_vaccinations))
        ∧ (handle_missing_values df).map Row.people_vaccinated
          = (groupKeys (df.map Row.iso_code)).flatMap
              (fun c => ffill none
                ((df.filter (fun r => r.iso_code == c)).map Row.people_vaccinated))
        ∧ (handle_missing_values df).map Row.people_fully_vaccinated
          = (groupKeys (df.map Row.iso_code)).flatMap
              (fun c => ffill none
                ((df.filter (fun r => r.iso_code == c)).map Row.people_fully_vaccinated)))
    ∧ (∀ (dfA dfB : List Row) (a b : String), a ≠ b →
        (∀ r ∈ dfA, r.iso_code = a) → (∀ r ∈ dfB, r.iso_code = b) →
        dfA ≠ [] → dfB ≠ [] →
        handle_missing_values (dfA ++ dfB)
          = handle_missing_values dfA ++ handle_missing_values dfB)
    ∧ (handle_missing_values exampleDf).map Row.total_cases
        = [some 100, some 100, some 100, some 140, some 999] := by
  refine ⟨ffill_length, ?_, ?_, ?_, by decide⟩
  · intro xs i h
    rw [ffill_getD none xs i h, oelse_none_right]
  · intro df
    refine ⟨?_, ?_, ?_, ?_, ?_⟩ <;>
    · rw [handle_missing_values, List.map_flatMap]
      congr 1
      funext c
      first
        | exact imputeFrom_map_total_cases Carry.init _
        | exact imputeFrom_map_total_deaths Carry.init _
        | exact imputeFrom_map_total_vaccinations Carry.init _
        | exact imputeFrom_map_people_vaccinated Carry.init _
        | exact imputeFrom_map_people_fully_vaccinated Carry.init _
  · intro dfA dfB a b hab hA hB hneA hneB
    rw [handle_missing_values, group_apply_pair (imputeFrom Carry.init) hab hA hB hneA hneB]
    rw [handle_missing_values, group_apply_single (imputeFrom Carry.init) hA hneA]
    rw [handle_missing_values, group_apply_single (imputeFrom Carry.init) hB hneB]

/-- C5 witness: the forward-fill characterization applied to the column
[100, missing] at index 1 (yielding the carried 100), and the cross-entity
independence applied to the one-row XXX and YYY blocks. -/
theorem ffill_per_entity_witness :
    (ffill none [some 100, none]).getD 1 none
      = oelse (([some (100 : ℚ), none]).getD 1 none)
          (lastPresent (([some (100 : ℚ), none]).take 1))
    ∧ handle_missing_values ([rowX 1 (some 100)] ++ [rowY])
        = handle_missing_values [rowX 1 (some 100)] ++ handle_missing_values [rowY] :=
  ⟨ffill_per_entity.2.1 [some 100, none] 1 (by norm_num),
   ffill_per_entity.2.2.2.1 [rowX 1 (some 100)] [rowY] "XXX" "YYY"
     (by decide) (by decide) (by decide) (by decide) (by decide)⟩

lemma rollingCenter7_getD (xs : List (Option ℚ)) (i : ℕ) (h : i < xs.length) :
    (rollingCenter7 xs).getD i none = windowMean (windowSlice xs i) := by
  unfold rollingCenter7
  simp [List.getD_eq_getElem?_getD, List.getElem?_range, h]

/-- C4: the 7-day centered moving average over one entity's sequence takes
the window of 3 preceding rows, the current row and 3 following rows,
truncated at the sequence edges: on a 10-row all-present sequence, index 5
averages indices 2 through 8 and index 0 averages indices 0 through 3; only
present values are averaged (a window with a hole averages the remaining
values); a window with no present value at all yields a missing result
(min_periods 1); and the grouped computation on two stacked single-entity
blocks equals the per-block computation, so windows never span entities. -/
theorem rolling7_centered_window :
    (∀ v : ℕ → ℚ,
      (rollingCenter7 ((List.range 10).map (fun i => some (v i)))).getD 5 none
        = some ((v 2 + v 3 + v 4 + v 5 + v 6 + v 7 + v 8) / 7)
      ∧ (rollingCenter7 ((List.range 10).map (fun i => some (v i)))).getD 0 none
        = some ((v 0 + v 1 + v 2 + v 3) / 4))
    ∧ (∀ a b : ℚ, rollingCenter7 [some a, none, some b]
        = [some ((a + b) / 2), some ((a + b) / 2), some ((a + b) / 2)])
    ∧ (∀ xs : List (Option ℚ), (∀ x ∈ xs, x = none) →
        rollingCenter7 xs = List.replicate xs.length none)
    ∧ (∀ (dfA dfB : List Row) (get : Row → Option ℚ) (a b : String), a ≠ b →
        (∀ r ∈ dfA, r.iso_code = a) → (∀ r ∈ dfB, r.iso_code = b) →
        dfA ≠ [] → dfB ≠ [] →
        groupbyRolling7 (dfA ++ dfB) get
          = rollingCenter7 (dfA.map get) ++ rollingCenter7 (dfB.map get)) := by
  refine ⟨?_, ?_, ?_, ?_⟩
  · intro v
    constructor
    · rw [rollingCenter7_getD _ 5 (by simp)]
      have hs : windowSlice ((List.range 10).map (fun i => (some (v i) : Option ℚ))) 5
          = [some (v 2), some (v 3), some (v 4), some (v 5), some (v 6),
             some (v 7), some (v 8)] := rfl
      rw [hs]
      simp [windowMean]
      ring
    · rw [rollingCenter7_getD _ 0 (by simp)]
      have hs : windowSlice ((List.range 10).map (fun i => (some (v i) : Option ℚ))) 0
          = [some (v 0), some (v 1), some (v 2), some (v 3)] := rfl
      rw [hs]
      simp [windowMean]
      ring
  · intro a b
    have h0 : windowSlice [some a, none, some b] 0 = [some a, none, some b] := rfl
    have h1 : windowSlice [some a, none, some b] 1 = [some a, none, some b] := rfl
    have h2 : windowSlice [some a, none, some b] 2 = [some a, none, some b] := rfl
    show [windowMean (windowSlice [some a, none, some b] 0),
          windowMean (windowSlice [some a, none, some b] 1),
          windowMean (windowSlice [some a, none, some b] 2)] = _
    rw [h0, h1, h2]
    simp [windowMean]
  · intro xs h
    rw [List.eq_replicate_iff]
    refine ⟨by simp [rollingCenter7], ?_⟩
    intro y hy
    rw [rollingCenter7, List.mem_map] at hy
    obtain ⟨i, _, rfl⟩ := hy
    have hvs : (windowSlice xs i).filterMap id = [] := by
      rw [List.filterMap_eq_nil_iff]
      intro x hx
      have hx2 : x ∈ xs :=
        List.mem_of_mem_drop (List.mem_of_mem_take hx)
      rw [h x hx2]
      rfl
    simp [windowMean, hvs]
  · intro dfA dfB get a b hab hA hB hneA hneB
    rw [groupbyRolling7]
    exact group_apply_pair (fun rows => rollingCenter7 (rows.map get)) hab hA hB hneA hneB

/-- C4 witness: a two-row all-missing sequence averages to all-missing, and
the grouped rolling mean of the stacked one-row XXX and YYY blocks splits
into the per-block rolling means. -/
theorem rolling7_centered_window_witness :
    rollingCenter7 [none, none] = [none, none]
    ∧ groupbyRolling7 ([rowX 1 (some 100)] ++ [rowY]) Row.total_cases
        = rollingCenter7 ([rowX 1 (some 100)].map Row.total_cases)
          ++ rollingCenter7 ([rowY].map Row.total_cases) :=
  ⟨(rolling7_centered_window.2.2.1 [none, none] (by decide)).trans (by rfl),
   rolling7_centered_window.2.2.2 [rowX 1 (some 100)] [rowY] Row.total_cases
     "XXX" "YYY" (by decide) (by decide) (by decide) (by decide) (by decide)⟩

lemma mem_imputeFrom_daily (acc : Carry) (rows : List Row) (r : Row)
    (h : r ∈ imputeFrom acc rows) :
    r.new_cases ≠ none ∧ r.new_deaths ≠ none ∧ r.new_vaccinations ≠ none := by
  induction rows generalizing acc with
  | nil => cases h
  | cons x rest ih =>
    simp only [imputeFrom] at h
    rcases List.mem_cons.mp h with rfl | hmem
    · refine ⟨?_, ?_, ?_⟩ <;> simp
    · exact ih _ hmem

/-- The result of imputing the all-missing row of entity XXX at date 1: the
daily counters become 0, everything else stays missing. -/
def imputedRow : Row :=
  { blankRow "XXX" 1 with
      new_cases := some 0, new_deaths := some 0, new_vaccinations := some 0 }

/-- C9: every row produced by the imputation step has non-missing new_cases,
new_deaths and new_vaccinations (daily counters are unconditionally
zero-filled), so for such a row the quality score carries no penalty term for
a missing new_cases: it equals the formula with only the total_cases and
population missing penalties, the negative-new_cases penalty and the CFR
penalty. -/
theorem imputed_daily_nonmissing :
    ∀ (df : List Row) (r : Row), r ∈ handle_missing_values df →
      (r.new_cases ≠ none ∧ r.new_deaths ≠ none ∧ r.new_vaccinations ≠ none)
      ∧ (∀ tc pop cfr : Option ℚ,
          calculate_data_quality_score r.new_cases tc pop cfr
            = max 0 (100 - (if tc = none then (15 : ℚ) else 0)
                - (if pop = none then (15 : ℚ) else 0)
                - (match r.new_cases with
                   | some v => if v < 0 then (10 : ℚ) else 0
                   | none => 0)
                - (match cfr with
                   | some v => if 20 < v then (5 : ℚ) else 0
                   | none => 0))) := by
  intro df r hr
  rw [handle_missing_values, List.mem_flatMap] at hr
  obtain ⟨c, _, hmem⟩ := hr
  have hd := mem_imputeFrom_daily Carry.init _ r hmem
  refine ⟨hd, ?_⟩
  intro tc pop cfr
  obtain ⟨v, hv⟩ := Option.ne_none_iff_exists'.mp hd.1
  rw [hv]
  simp [calculate_data_quality_score]

/-- C9 witness: imputing the dataframe with the single all-missing XXX row
yields a row whose new_cases is present (zero), and its quality score with
total_cases, population and CFR all missing is 70 = 100 - 15 - 15: the
missing-new_cases penalty does not apply. -/
theorem imputed_daily_nonmissing_witness :
    imputedRow.new_cases ≠ none
    ∧ calculate_data_quality_score imputedRow.new_cases none none none = 70 := by
  have h := imputed_daily_nonmissing [blankRow "XXX" 1] imputedRow (by decide)
  refine ⟨h.1.1, ?_⟩
  rw [h.2 none none none]
  norm_num [imputedRow, blankRow]

end Covid
